import Mathlib

/-!
Verification of the Knowledge Extraction Pipeline (web search, article
fetch, HTML cleaning, LLM prompt, JSON-in-prose extraction, knowledge
tree assembly).

Shallow embedding conventions:
* Python dicts produced by json.loads, and the dict literals the code
  builds, are embedded as `JValue` (JSON numbers are embedded as `Int`;
  no claim touches numeric values).
* External effects (the search-provider call, the HTTP GET, the LLM
  invocation, json.loads) are passed in as explicit arguments: an
  `Except String A` models a call that either raises (with the exception
  text str(e)) or returns a value; a plain function models a call the
  surrounding code treats as total.
* Python whitespace handling (the regex class backslash-s, and str.strip)
  is modelled over the ASCII whitespace characters; every input appearing
  in the claims uses only ASCII whitespace.
-/

/-- Embedded JSON values (the result of json.loads and the dict/list
literals the Python code builds). Numbers are embedded as `Int`. -/
inductive JValue where
  | null : JValue
  | bool (b : Bool) : JValue
  | num (n : Int) : JValue
  | str (s : String) : JValue
  | arr (elts : List JValue) : JValue
  | obj (fields : List (String × JValue)) : JValue

/-- Keys of a JSON object, in order; `[]` on non-objects. -/
def JValue.objKeys : JValue → List String
  | .obj fields => fields.map (·.1)
  | _ => []

/-- Dict lookup on the field list of an embedded dict (Python `k in d` is
modelled as this being `some`; dict keys are unique, so first match). -/
def lookupField : List (String × JValue) → String → Option JValue
  | [], _ => none
  | (k1, v1) :: rest, k => if k1 = k then some v1 else lookupField rest k

/-- Python d.get(k, default) on the field list of an embedded dict. -/
def getD (fields : List (String × JValue)) (k : String) (d : JValue) : JValue :=
  (lookupField fields k).getD d

/-- Python dict assignment d[k] = v on the field list of an embedded dict:
replace the value when the key is present (Python dicts keep the position
of an existing key), append otherwise. -/
def setField (fields : List (String × JValue)) (k : String) (v : JValue) :
    List (String × JValue) :=
  if fields.any (fun p => p.1 = k) then
    fields.map (fun p => if p.1 = k then (k, v) else p)
  else
    fields ++ [(k, v)]

/-- ASCII whitespace: the characters that the Python regex whitespace
class and str.strip treat as whitespace within the ASCII range. -/
def isWS (c : Char) : Bool :=
  c = ' ' || c = '\t' || c = '\n' || c = '\r' || c = '\x0b' || c = '\x0c'

/-- Python str.strip() over a character list (ASCII whitespace). -/
def stripWS (cs : List Char) : List Char :=
  ((cs.dropWhile isWS).reverse.dropWhile isWS).reverse

/-!
Embedding of KnowledgeTreeManager._extract_json (src/knowledge_tree.py,
lines 89-104).  The Python function runs, in order, re.search with
pattern (1): three backticks, an optional json tag, greedy whitespace, a
lazy capture, greedy whitespace, three backticks; then, on failure,
re.search with pattern (2): a capture group of a brace-open, a greedy
match-anything, a brace-close; else it returns the input.  The embeddings
below reproduce the backtracking semantics of those two searches:

* Pattern (1) at a given start: the literal opening backticks; the
  optional tag is taken greedily (skipping it can never rescue a failing
  match, since neither the tag nor whitespace contains a backtick); the
  first whitespace run is maximal (again, shrinking it can never rescue a
  match); the lazy capture then ends at the earliest position from which
  trailing whitespace reaches a closing triple backtick, i.e. the capture
  is everything up to the first later triple backtick, with trailing
  whitespace trimmed.  re.search takes the leftmost start at which this
  succeeds.
* Pattern (2) matches iff the first brace-open of the text has some
  brace-close strictly after it, and then captures from that first
  brace-open through the last brace-close of the text (greedy).
-/

/-- Index of the first occurrence of three consecutive backticks. -/
def findTicks : List Char → Option Nat
  | [] => none
  | c :: rest =>
    if ['`', '`', '`'].isPrefixOf (c :: rest) then some 0
    else (findTicks rest).map (· + 1)

/-- Attempt pattern (1) at this start position; `some` holds the capture
group (the inner content of the fenced block, surrounding whitespace
trimmed). -/
def fenceCapture (s : List Char) : Option (List Char) :=
  if ['`', '`', '`'].isPrefixOf s then
    let s1 := s.drop 3
    let s2 := if ['j', 's', 'o', 'n'].isPrefixOf s1 then s1.drop 4 else s1
    let s3 := s2.dropWhile isWS
    match findTicks s3 with
    | none => none
    | some r => some ((s3.take r).reverse.dropWhile isWS).reverse
  else none

/-- Run re.search for pattern (1): try every start position left to
right. -/
def fencedSearch : List Char → Option (List Char)
  | [] => none
  | c :: rest =>
    match fenceCapture (c :: rest) with
    | some cap => some cap
    | none => fencedSearch rest

/-- Index of the first character satisfying `p`. -/
def firstIdx (p : Char → Bool) : List Char → Option Nat
  | [] => none
  | c :: rest => if p c then some 0 else (firstIdx p rest).map (· + 1)

/-- Index of the last character satisfying `p`. -/
def lastIdx (p : Char → Bool) (cs : List Char) : Option Nat :=
  (firstIdx p cs.reverse).map (fun i => cs.length - 1 - i)

/-- Run re.search for pattern (2): a brace-open, a greedy match-anything,
a brace-close — i.e. the substring from the first brace-open through the
last brace-close, when the latter lies strictly after the former. -/
def braceExtract (cs : List Char) : Option (List Char) :=
  match firstIdx (fun c => c = '{') cs, lastIdx (fun c => c = '}') cs with
  | some i, some j => if i < j then some ((cs.drop i).take (j - i + 1)) else none
  | _, _ => none

/-- Embedding of KnowledgeTreeManager._extract_json: fenced block first,
then the greedy outermost-brace substring, else the input unchanged. -/
def extract_json (text : List Char) : List Char :=
  match fencedSearch text with
  | some cap => cap
  | none =>
    match braceExtract text with
    | some sub => sub
    | none => text

/-- Wrapper running extract_json on a `String`. -/
def extractJsonStr (s : String) : String :=
  ⟨extract_json s.data⟩

/-!
Embedding of WebScraper.fetch_article_content (src/web_scraper.py, lines
68-100).  The HTTP GET, raise_for_status and the BeautifulSoup parse are
external; the function receives their combined outcome as an
`Except String Node`: an error models any raised exception (timeout,
connection error, non-success status), an `ok` carries the parsed HTML
document tree.  The cleaning pipeline (tag removal, get_text, the
line/chunk whitespace normalization, the 8000-character truncation) is
embedded from the source.  Python splitlines is modelled as splitting on
the newline character (the other splitlines separators are rare control
characters; per-line strip removes carriage returns at line ends either
way).
-/

/-- A parsed HTML node: a text node or an element with a tag and
children. -/
inductive Node where
  | text (s : String) : Node
  | elem (tag : String) (children : List Node) : Node

/-- Tags removed (with their whole subtrees) before text extraction. -/
def removedTags : List String := ["script", "style", "nav", "footer", "header"]

mutual

/-- Result of soup([...tags...]) extraction on one node: `none` when the
node is itself a removed element, otherwise the node with every removed
descendant extracted. -/
def stripNode : Node → Option Node
  | .text s => some (.text s)
  | .elem tag children =>
    if tag ∈ removedTags then none
    else some (.elem tag (stripChildren children))

/-- Result of soup([...tags...]) extraction on a list of siblings. -/
def stripChildren : List Node → List Node
  | [] => []
  | n :: rest =>
    match stripNode n with
    | some n2 => n2 :: stripChildren rest
    | none => stripChildren rest

end

mutual

/-- BeautifulSoup get_text(): concatenation of all text nodes. -/
def getText : Node → List Char
  | .text s => s.data
  | .elem _ children => getTextChildren children

/-- BeautifulSoup get_text() over a list of siblings. -/
def getTextChildren : List Node → List Char
  | [] => []
  | n :: rest => getText n ++ getTextChildren rest

end

mutual

/-- Specification-side notion used by the tag-removal claim: the document
text that lies outside every script/style/nav/footer/header subtree. -/
def keptText : Node → List Char
  | .text s => s.data
  | .elem tag children =>
    if tag ∈ removedTags then [] else keptTextChildren children

/-- Text outside removed subtrees, over a list of siblings. -/
def keptTextChildren : List Node → List Char
  | [] => []
  | n :: rest => keptText n ++ keptTextChildren rest

end

/-- Python text.splitlines(), modelled as splitting on the newline
character. -/
def splitNewline : List Char → List (List Char)
  | [] => [[]]
  | c :: rest =>
    if c = '\n' then [] :: splitNewline rest
    else
      match splitNewline rest with
      | [] => [[c]]
      | piece :: pieces => (c :: piece) :: pieces

/-- Python line.split("  "): split on each non-overlapping occurrence of
two consecutive spaces, scanning left to right. -/
def splitTwoSpaces : List Char → List (List Char)
  | [] => [[]]
  | [c] => [[c]]
  | c1 :: c2 :: rest =>
    if c1 = ' ' ∧ c2 = ' ' then [] :: splitTwoSpaces rest
    else
      match splitTwoSpaces (c2 :: rest) with
      | [] => [[c1]]
      | piece :: pieces => (c1 :: piece) :: pieces

/-- Python sep.join(pieces) for a one-character separator. -/
def joinChar (sep : Char) : List (List Char) → List Char
  | [] => []
  | [p] => p
  | p :: q :: rest => p ++ sep :: joinChar sep (q :: rest)

/-- Lines 88-92 of src/web_scraper.py: split into lines, strip each line,
split each line on two consecutive spaces, strip each chunk, drop blank
chunks, rejoin with newlines. -/
def normalizeText (cs : List Char) : List Char :=
  let lines := (splitNewline cs).map stripWS
  let chunks := (lines.map (fun line => (splitTwoSpaces line).map stripWS)).flatten
  joinChar '\n' (chunks.filter (fun chunk => ¬ chunk.isEmpty))

/-- The HTML Content Extractor on a parsed document: remove the banned
tags, take the text, normalize whitespace, truncate to 8000 characters
(lines 78-95 of src/web_scraper.py). -/
def extractContent (doc : Node) : List Char :=
  (normalizeText (getTextChildren (stripChildren [doc]))).take 8000

/-- WebScraper.fetch_article_content: on any raised exception return the
empty string, otherwise run the extraction pipeline on the parsed
document. -/
def fetch_article_content (response : Except String Node) : String :=
  match response with
  | .error _ => ""
  | .ok doc => ⟨extractContent doc⟩

/-!
Embedding of WebScraper.search_web (src/web_scraper.py, lines 26-66).
Two external calls happen inside the try block: the redundant
SerpAPIWrapper run call (its string result is unused; it can still
raise) and the GoogleSearch get_dict call, which returns the parsed
provider payload, a dict.  Both are passed in as `Except` arguments.
Every failure path of the source returns the empty list.
-/

/-- Lines 56-60: the formatted-result dict built from one organic result.
`none` models the raise when the item is not a dict (a raise inside the
loop discards all results via the enclosing try/except). -/
def mkFormatted (item : JValue) : Option JValue :=
  match item with
  | .obj fs =>
    some (.obj [("title", getD fs "title" (.str "")),
                ("snippet", getD fs "snippet" (.str "")),
                ("link", getD fs "link" (.str ""))])
  | _ => none

/-- The formatting loop of lines 54-60 over the sliced organic results:
all items format, or the loop raises (`none`). -/
def formatItems : List JValue → Option (List JValue)
  | [] => some []
  | item :: rest =>
    match mkFormatted item, formatItems rest with
    | some f, some fs => some (f :: fs)
    | _, _ => none

/-- WebScraper.search_web.  `runResult` is the outcome of the redundant
initial wrapper call, `dictResult` the outcome of get_dict (error =
raised exception; ok = the returned dict, as its field list). -/
def search_web (runResult : Except String String)
    (dictResult : Except String (List (String × JValue)))
    (num_results : Nat) : List JValue :=
  match runResult with
  | .error _ => []
  | .ok _ =>
    match dictResult with
    | .error _ => []
    | .ok fields =>
      if fields.isEmpty then []
      else
        match lookupField fields "organic_results" with
        | none => []
        | some (.arr items) =>
          match formatItems (items.take num_results) with
          | some formatted => formatted
          | none => []
        | some _ => []

/-!
Embedding of KnowledgeTreeManager (src/knowledge_tree.py).  The LLM call
(self.model.invoke) and json.loads are external: `invoke` maps the
rendered prompt to either a raised exception (error, carrying str(e)) or
the raw response text; `loads` maps the extracted JSON string to either a
decode exception or the decoded value.  Both generate operations wrap
everything in try/except and return a fixed fallback dict on any raise.
The wording of the two prompt templates is configuration, not algorithm
(spec section 1); the embedding keeps only what the claims depend on:
each prompt is a fixed function of its substituted arguments.
-/

/-- Rendered prompt of generate_knowledge_tree (template wording elided;
a fixed function of topic and content). -/
def treePrompt (topic content : String) : String :=
  "KNOWLEDGE_TREE_PROMPT\nTOPIC: " ++ topic ++ "\nCONTENT: " ++ content

/-- Rendered prompt of expand_subtopic (template wording elided; a fixed
function of topic, subtopic and content). -/
def expandPrompt (topic subtopic content : String) : String :=
  "EXPAND_SUBTOPIC_PROMPT\nTOPIC: " ++ topic ++ "\nSUBTOPIC: " ++ subtopic
    ++ "\nCONTENT: " ++ content

/-- Lines 74-87 of src/knowledge_tree.py: the fallback dict returned by
generate_knowledge_tree when anything in the try block raises. -/
def fallbackTree (topic msg : String) : JValue :=
  .obj [("topic", .str topic),
        ("subtopics", .arr
          [.obj [("name", .str "Error generating knowledge tree"),
                 ("key_points", .arr
                   [.obj [("point", .str "Error"),
                          ("explanation",
                           .str ("Failed to generate knowledge tree: " ++ msg))]])]])]

/-- KnowledgeTreeManager.generate_knowledge_tree. -/
def generate_knowledge_tree (topic content : String)
    (invoke : String → Except String String)
    (loads : String → Except String JValue) : JValue :=
  match invoke (treePrompt topic content) with
  | .error e => fallbackTree topic e
  | .ok response =>
    match loads (extractJsonStr response) with
    | .error e => fallbackTree topic e
    | .ok tree => tree

/-- Lines 171-175 of src/knowledge_tree.py: the fallback dict returned by
expand_subtopic when anything in the try block raises. -/
def fallbackExpand (subtopic msg : String) : JValue :=
  .obj [("subtopic", .str subtopic),
        ("overview", .str ("Failed to expand subtopic: " ++ msg)),
        ("aspects", .arr [])]

/-- KnowledgeTreeManager.expand_subtopic. -/
def expand_subtopic (topic subtopic content : String)
    (invoke : String → Except String String)
    (loads : String → Except String JValue) : JValue :=
  match invoke (expandPrompt topic subtopic content) with
  | .error e => fallbackExpand subtopic e
  | .ok response =>
    match loads (extractJsonStr response) with
    | .error e => fallbackExpand subtopic e
    | .ok expanded => expanded

/-- Declared KeyPoint shape: a record with string point and string
explanation. -/
def isKeyPointShape : JValue → Bool
  | .obj [("point", .str _), ("explanation", .str _)] => true
  | _ => false

/-- Declared Subtopic shape: a record with a string name and a list of
KeyPoint records. -/
def isSubtopicShape : JValue → Bool
  | .obj [("name", .str _), ("key_points", .arr kps)] => kps.all isKeyPointShape
  | _ => false

/-- Declared KnowledgeTree shape as produced by the Knowledge Tree
Builder: a string topic and a list of Subtopic records.  The sources
field is attached afterwards by the Research Orchestrator (spec section
4.6), so it is not part of the Builder-level shape. -/
def isKnowledgeTreeShape : JValue → Bool
  | .obj [("topic", .str _), ("subtopics", .arr sts)] => sts.all isSubtopicShape
  | _ => false

/-!
Embedding of the Research Orchestrator: the body of the search button
handler (src/app.py, lines 70-117).  The constructed WebScraper and
KnowledgeTreeManager calls are passed in: `fetch` is
web_scraper.fetch_article_content (total: it returns the empty string on
failure) and `genTree` is knowledge_tree_manager.generate_knowledge_tree
(total: it returns a fallback dict on failure).  The run records, besides
the outcome, the URLs passed to the fetcher and the (topic, content)
arguments passed to the tree generator, so call counts are observable.
Also embedded: WebScraper.analyze_topic (src/web_scraper.py, lines
102-137), the three-result variant of the same loop.
-/

/-- One search result as consumed by the orchestrator loops: the dict
with keys title, snippet, link built by search_web. -/
structure SearchResult where
  title : String
  snippet : String
  link : String

/-- One entry of content_data: the dict with keys title, content, url
built at src/app.py lines 84-88 (and src/web_scraper.py lines 117-121). -/
structure SourceDoc where
  title : String
  content : String
  url : String

/-- The content_data accumulation loop: fetch every result, keep only
those whose fetched content is non-empty, in result order. -/
def contentData (results : List SearchResult) (fetch : String → String) :
    List SourceDoc :=
  results.filterMap (fun r =>
    let c := fetch r.link
    if c = "" then none else some ⟨r.title, c, r.link⟩)

/-- Python sep.join(pieces) for a string separator. -/
def joinStr (sep : String) : List String → String
  | [] => ""
  | [s] => s
  | s :: s2 :: rest => s ++ sep ++ joinStr sep (s2 :: rest)

/-- The combined content block: SOURCE-tagged blocks joined by blank
lines (src/app.py lines 92-94). -/
def combinedContent (docs : List SourceDoc) : String :=
  joinStr "\n\n" (docs.map (fun d => "SOURCE: " ++ d.title ++ "\n" ++ d.content))

/-- Dict assignment knowledge_tree["sources"] = [...]: `none` models the
raise when the decoded tree is not a dict (caught by the outer handler
try/except). -/
def setSources (tree : JValue) (urls : List String) : Option JValue :=
  match tree with
  | .obj fs => some (.obj (setField fs "sources" (.arr (urls.map JValue.str))))
  | _ => none

/-- Outcome of one press of the search button: the no-results error
message (src/app.py line 73), a generated tree saved to session state, or
the outer exception handler (line 120). -/
inductive HandlerOutcome where
  | noResults : HandlerOutcome
  | tree (t : JValue) : HandlerOutcome
  | raisedError : HandlerOutcome

/-- A handler run: its outcome plus the observable external calls (URLs
passed to the article fetcher, in order, and the argument pairs passed to
the tree generator). -/
structure HandlerRun where
  outcome : HandlerOutcome
  fetchedUrls : List String
  llmCalls : List (String × String)

/-- The search button handler body after search_web returned
(src/app.py lines 72-102), over the already-obtained search results. -/
def runSearchHandler (topic : String) (searchResults : List SearchResult)
    (fetch : String → String) (genTree : String → String → JValue) :
    HandlerRun :=
  if searchResults.isEmpty then
    ⟨.noResults, [], []⟩
  else
    let docs := contentData searchResults fetch
    let combined := combinedContent docs
    let tree := genTree topic combined
    match setSources tree (docs.map (·.url)) with
    | some t => ⟨.tree t, searchResults.map (·.link), [(topic, combined)]⟩
    | none => ⟨.raisedError, searchResults.map (·.link), [(topic, combined)]⟩

/-- The dict returned by WebScraper.analyze_topic. -/
structure TopicAnalysis where
  topic : String
  summary : String
  sources : List String

/-- WebScraper.analyze_topic over the already-obtained search results:
fetch only the first three results, keep non-empty contents, summarize
the combined block.  Also returns the URLs passed to the fetcher. -/
def analyze_topic (topic : String) (searchResults : List SearchResult)
    (fetch : String → String) (summarize : String → String → String) :
    TopicAnalysis × List String :=
  let docs := contentData (searchResults.take 3) fetch
  (⟨topic, summarize topic (combinedContent docs), docs.map (·.url)⟩,
   (searchResults.take 3).map (·.link))

/-!
Helper lemmas.  The membership lemmas track a character of the normalized
output back to the pre-normalization text; the strip lemma identifies the
post-removal document text with the text lying outside every removed
subtree.
-/

theorem mem_of_mem_stripWS {c : Char} {l : List Char} (h : c ∈ stripWS l) : c ∈ l := by
  simp only [stripWS, List.mem_reverse] at h
  exact (List.dropWhile_sublist _).subset
    (List.mem_reverse.mp ((List.dropWhile_sublist _).subset h))

theorem mem_of_mem_splitNewline {cs piece : List Char} {c : Char}
    (hp : piece ∈ splitNewline cs) (hc : c ∈ piece) : c ∈ cs := by
  induction cs using splitNewline.induct generalizing piece with
  | case1 =>
    simp [splitNewline] at hp; subst hp; simp at hc
  | case2 rest ih =>
    simp only [splitNewline, if_pos rfl] at hp
    rcases List.mem_cons.mp hp with rfl | hp2
    · simp at hc
    · exact List.mem_cons_of_mem _ (ih hp2 hc)
  | case3 a rest hne heq ih =>
    simp only [splitNewline, if_neg hne, heq] at hp
    simp at hp; subst hp
    simp at hc; subst hc
    exact List.mem_cons_self _ _
  | case4 a rest hne piece0 pieces heq ih =>
    simp only [splitNewline, if_neg hne, heq] at hp
    rcases List.mem_cons.mp hp with rfl | hp2
    · rcases List.mem_cons.mp hc with rfl | hc2
      · exact List.mem_cons_self _ _
      · exact List.mem_cons_of_mem _ (ih (heq ▸ List.mem_cons_self piece0 pieces) hc2)
    · exact List.mem_cons_of_mem _ (ih (heq ▸ List.mem_cons_of_mem piece0 hp2) hc)

theorem mem_of_mem_splitTwoSpaces {cs piece : List Char} {c : Char}
    (hp : piece ∈ splitTwoSpaces cs) (hc : c ∈ piece) : c ∈ cs := by
  induction cs using splitTwoSpaces.induct generalizing piece with
  | case1 =>
    simp [splitTwoSpaces] at hp; subst hp; simp at hc
  | case2 a =>
    simp [splitTwoSpaces] at hp; subst hp
    simpa using hc
  | case3 c1 c2 rest hss ih =>
    simp only [splitTwoSpaces, if_pos hss] at hp
    rcases List.mem_cons.mp hp with rfl | hp2
    · simp at hc
    · exact List.mem_cons_of_mem _ (List.mem_cons_of_mem _ (ih hp2 hc))
  | case4 c1 c2 rest hss heq ih =>
    simp only [splitTwoSpaces, if_neg hss, heq] at hp
    simp at hp; subst hp
    simp at hc; subst hc
    exact List.mem_cons_self _ _
  | case5 c1 c2 rest hss piece0 pieces heq ih =>
    simp only [splitTwoSpaces, if_neg hss, heq] at hp
    rcases List.mem_cons.mp hp with rfl | hp2
    · rcases List.mem_cons.mp hc with rfl | hc2
      · exact List.mem_cons_self _ _
      · exact List.mem_cons_of_mem _ (ih (heq ▸ List.mem_cons_self piece0 pieces) hc2)
    · exact List.mem_cons_of_mem _ (ih (heq ▸ List.mem_cons_of_mem piece0 hp2) hc)

theorem mem_of_mem_joinChar {sep : Char} {ps : List (List Char)} {c : Char}
    (h : c ∈ joinChar sep ps) : c = sep ∨ ∃ p ∈ ps, c ∈ p := by
  induction ps using joinChar.induct sep with
  | case1 => simp [joinChar] at h
  | case2 p => right; exact ⟨p, by simp, by simpa [joinChar] using h⟩
  | case3 p q rest ih =>
    rw [joinChar] at h
    rcases List.mem_append.mp h with h1 | h2
    · right; exact ⟨p, by simp, h1⟩
    · rcases List.mem_cons.mp h2 with rfl | h3
      · left; rfl
      · rcases ih h3 with h4 | ⟨p2, hp2, hc2⟩
        · left; exact h4
        · right; exact ⟨p2, by simp [hp2], hc2⟩

theorem mem_of_mem_normalizeText {cs : List Char} {c : Char}
    (h : c ∈ normalizeText cs) : c = '\n' ∨ c ∈ cs := by
  simp only [normalizeText] at h
  rcases mem_of_mem_joinChar h with rfl | ⟨chunk, hchunk, hc⟩
  · exact Or.inl rfl
  · right
    have hchunk2 := List.mem_of_mem_filter hchunk
    rcases List.mem_flatten.mp hchunk2 with ⟨chs, hchs, hchunk3⟩
    rcases List.mem_map.mp hchs with ⟨line, hline, rfl⟩
    rcases List.mem_map.mp hchunk3 with ⟨phrase, hphrase, rfl⟩
    rcases List.mem_map.mp hline with ⟨rawline, hraw, rfl⟩
    exact mem_of_mem_splitNewline hraw
      (mem_of_mem_stripWS (mem_of_mem_splitTwoSpaces hphrase (mem_of_mem_stripWS hc)))

theorem getText_strip_eq_keptText (ns : List Node) :
    getTextChildren (stripChildren ns) = keptTextChildren ns :=
  match ns with
  | [] => rfl
  | .text s :: rest => by
    rw [stripChildren, stripNode, getTextChildren, keptTextChildren, keptText, getText,
        getText_strip_eq_keptText rest]
  | .elem tag children :: rest => by
    by_cases h : tag ∈ removedTags
    · rw [stripChildren, stripNode, if_pos h, keptTextChildren, keptText, if_pos h,
          getText_strip_eq_keptText rest]
      rfl
    · rw [stripChildren, stripNode, if_neg h]
      show getText (.elem tag (stripChildren children)) ++
          getTextChildren (stripChildren rest) = _
      rw [getText, getText_strip_eq_keptText children, getText_strip_eq_keptText rest,
          keptTextChildren, keptText, if_neg h]
  termination_by sizeOf ns

/-!
Claim theorems.
-/

/-- C1: the JSON-in-Prose Extractor applies exactly this priority order:
a triple-backtick fenced block (optionally tagged json) returns the inner
content with surrounding whitespace trimmed; otherwise a brace-open with
some brace-close after it returns the substring from the first brace-open
through the last brace-close; otherwise the input is returned unchanged.
In particular the three quoted inputs of the claim behave as stated. -/
theorem C1_extract_json_priority :
    (extractJsonStr "prefix ```json\n\x7b\"a\":1\x7d\n``` suffix" = "\x7b\"a\":1\x7d") ∧
    (extractJsonStr "foo \x7b\"a\":1\x7d bar" = "\x7b\"a\":1\x7d") ∧
    (extractJsonStr "no fenced block and no brace pair here" =
      "no fenced block and no brace pair here") ∧
    (∀ text cap, fencedSearch text = some cap → extract_json text = cap) ∧
    (∀ text sub, fencedSearch text = none → braceExtract text = some sub →
      extract_json text = sub) ∧
    (∀ text, fencedSearch text = none → braceExtract text = none →
      extract_json text = text) := by
  refine ⟨by decide, by decide, by decide, ?_, ?_, ?_⟩
  · intro text cap h
    simp [extract_json, h]
  · intro text sub h1 h2
    simp [extract_json, h1, h2]
  · intro text h1 h2
    simp [extract_json, h1, h2]

/-- Witness for C1 at a concrete input with neither a fenced block nor a
brace pair. -/
theorem C1_extract_json_priority_witness :
    extract_json ("plain text with no code at all".data) =
      "plain text with no code at all".data :=
  C1_extract_json_priority.2.2.2.2.2 "plain text with no code at all".data
    (by decide) (by decide)

/-- C8: for every input (any fetch outcome, hence any parsed HTML
document), the output of the content extractor has length at most 8000
characters. -/
theorem C8_content_length_le (response : Except String Node) :
    (fetch_article_content response).length ≤ 8000 := by
  cases response with
  | error e => simp [fetch_article_content]
  | ok doc =>
    show (extractContent doc).length ≤ 8000
    rw [extractContent, List.length_take]
    exact min_le_left _ _

/-- C9: no text from inside a script/style/nav/footer/header subtree
reaches the extractor output: every output character is either the
newline separator reintroduced by the join or a character of the document
text lying outside every removed subtree. -/
theorem C9_removed_subtree_text (response : Except String Node) (c : Char)
    (h : c ∈ (fetch_article_content response).data) :
    c = '\n' ∨ ∃ doc, response = .ok doc ∧ c ∈ keptText doc := by
  cases response with
  | error e => simp [fetch_article_content] at h
  | ok doc =>
    have h2 : c ∈ extractContent doc := h
    have h3 : c ∈ normalizeText (getTextChildren (stripChildren [doc])) :=
      (List.take_sublist _ _).subset h2
    rcases mem_of_mem_normalizeText h3 with rfl | h4
    · exact Or.inl rfl
    · refine Or.inr ⟨doc, rfl, ?_⟩
      rw [getText_strip_eq_keptText] at h4
      simpa [keptTextChildren] using h4

/-- Witness for C9: a document whose script subtree holds the text EVIL
and whose body holds hi; the character h of the output is accounted for
by the kept text. -/
theorem C9_removed_subtree_text_witness :
    'h' = '\n' ∨ ∃ doc,
      (Except.ok (Node.elem "div" [.elem "script" [.text "EVIL"], .text "hi"]) :
        Except String Node) = .ok doc ∧ 'h' ∈ keptText doc :=
  C9_removed_subtree_text
    (.ok (Node.elem "div" [.elem "script" [.text "EVIL"], .text "hi"])) 'h'
    (by
      simp only [fetch_article_content, extractContent, stripChildren, stripNode,
        getTextChildren, getText, removedTags]
      decide)

/-- C2: when the Web Search Client returned an empty sequence, the
orchestrating handler surfaces the no-results signal and performs zero
article fetches and zero LLM (tree generation) calls. -/
theorem C2_empty_search_results (topic : String) (fetch : String → String)
    (genTree : String → String → JValue) :
    (runSearchHandler topic [] fetch genTree).outcome = .noResults ∧
    (runSearchHandler topic [] fetch genTree).fetchedUrls = [] ∧
    (runSearchHandler topic [] fetch genTree).llmCalls = [] :=
  ⟨rfl, rfl, rfl⟩

/-- C10: analyze_topic passes at most the first three search results to
the article fetcher, and its sources list has length at most three. -/
theorem C10_analyze_topic_limits (topic : String) (searchResults : List SearchResult)
    (fetch : String → String) (summarize : String → String → String) :
    (analyze_topic topic searchResults fetch summarize).2 =
      (searchResults.take 3).map (·.link) ∧
    (analyze_topic topic searchResults fetch summarize).2.length ≤ 3 ∧
    (analyze_topic topic searchResults fetch summarize).1.sources.length ≤ 3 := by
  refine ⟨rfl, ?_, ?_⟩
  · show ((searchResults.take 3).map (·.link)).length ≤ 3
    rw [List.length_map]
    exact List.length_take_le _ _
  · show ((contentData (searchResults.take 3) fetch).map (·.url)).length ≤ 3
    rw [List.length_map]
    exact le_trans (List.length_filterMap_le _ _) (List.length_take_le _ _)

/-- C3: on an LLM-call failure or a JSON-decode failure,
generate_knowledge_tree returns exactly the declared fallback structure,
whose explanation string carries the failure message, and the fallback
validates against the declared KnowledgeTree shape. -/
theorem C3_generate_tree_fallback (topic content e : String)
    (invoke : String → Except String String) (loads : String → Except String JValue)
    (h : invoke (treePrompt topic content) = .error e ∨
      ∃ r, invoke (treePrompt topic content) = .ok r ∧
        loads (extractJsonStr r) = .error e) :
    generate_knowledge_tree topic content invoke loads = fallbackTree topic e ∧
    fallbackTree topic e =
      .obj [("topic", .str topic),
            ("subtopics", .arr
              [.obj [("name", .str "Error generating knowledge tree"),
                     ("key_points", .arr
                       [.obj [("point", .str "Error"),
                              ("explanation",
                               .str ("Failed to generate knowledge tree: " ++ e))]])]])] ∧
    isKnowledgeTreeShape (fallbackTree topic e) = true ∧
    (∃ pre, "Failed to generate knowledge tree: " ++ e = pre ++ e) := by
  refine ⟨?_, rfl, rfl, ⟨"Failed to generate knowledge tree: ", rfl⟩⟩
  rcases h with h | ⟨r, h1, h2⟩
  · simp [generate_knowledge_tree, h]
  · simp [generate_knowledge_tree, h1, h2]

/-- Witness for C3: a concrete raised LLM call. -/
theorem C3_generate_tree_fallback_witness :
    generate_knowledge_tree "t" "c" (fun _ => .error "boom")
      (fun _ => .error "decode") = fallbackTree "t" "boom" :=
  (C3_generate_tree_fallback "t" "c" "boom" (fun _ => .error "boom")
    (fun _ => .error "decode") (Or.inl rfl)).1

/-- C6: on an LLM-call failure or a JSON-decode failure, expand_subtopic
returns exactly the declared fallback: the given subtopic name, an
overview of the form given in the claim, and an empty aspects list. -/
theorem C6_expand_fallback (topic subtopic content e : String)
    (invoke : String → Except String String) (loads : String → Except String JValue)
    (h : invoke (expandPrompt topic subtopic content) = .error e ∨
      ∃ r, invoke (expandPrompt topic subtopic content) = .ok r ∧
        loads (extractJsonStr r) = .error e) :
    expand_subtopic topic subtopic content invoke loads = fallbackExpand subtopic e ∧
    fallbackExpand subtopic e =
      .obj [("subtopic", .str subtopic),
            ("overview", .str ("Failed to expand subtopic: " ++ e)),
            ("aspects", .arr [])] := by
  refine ⟨?_, rfl⟩
  rcases h with h | ⟨r, h1, h2⟩
  · simp [expand_subtopic, h]
  · simp [expand_subtopic, h1, h2]

/-- Witness for C6: a concrete raised decode. -/
theorem C6_expand_fallback_witness :
    expand_subtopic "t" "s" "c" (fun _ => .ok "not json")
      (fun _ => .error "Expecting value") = fallbackExpand "s" "Expecting value" :=
  (C6_expand_fallback "t" "s" "c" "Expecting value" (fun _ => .ok "not json")
    (fun _ => .error "Expecting value") (Or.inr ⟨"not json", rfl, rfl⟩)).1

theorem formatItems_length {l out : List JValue} (h : formatItems l = some out) :
    out.length = l.length := by
  induction l generalizing out with
  | nil =>
    simp [formatItems] at h
    subst h; rfl
  | cons item rest ih =>
    simp only [formatItems] at h
    cases hf : mkFormatted item with
    | none => rw [hf] at h; simp at h
    | some f =>
      rw [hf] at h
      cases hr : formatItems rest with
      | none => rw [hr] at h; simp at h
      | some fs =>
        rw [hr] at h
        simp at h
        subst h
        simp [ih hr]

theorem formatItems_mem {l out : List JValue} (h : formatItems l = some out)
    {j : JValue} (hj : j ∈ out) : ∃ item, item ∈ l ∧ mkFormatted item = some j := by
  induction l generalizing out with
  | nil =>
    simp [formatItems] at h
    subst h; simp at hj
  | cons item rest ih =>
    simp only [formatItems] at h
    cases hf : mkFormatted item with
    | none => rw [hf] at h; simp at h
    | some f =>
      rw [hf] at h
      cases hr : formatItems rest with
      | none => rw [hr] at h; simp at h
      | some fs =>
        rw [hr] at h
        simp at h
        subst h
        rcases List.mem_cons.mp hj with rfl | hj2
        · exact ⟨item, List.mem_cons_self _ _, hf⟩
        · rcases ih hr hj2 with ⟨item2, hi, hm⟩
          exact ⟨item2, List.mem_cons_of_mem _ hi, hm⟩

/-- C5: the Web Search Client returns at most num_results results, and
every failure path (raised wrapper call, raised provider call, missing
organic-results field, which also covers a provider error payload)
returns the empty sequence without raising. -/
theorem C5_search_web_bounds (runResult : Except String String)
    (dictResult : Except String (List (String × JValue))) (n : Nat) :
    (search_web runResult dictResult n).length ≤ n ∧
    (∀ e, runResult = .error e → search_web runResult dictResult n = []) ∧
    (∀ e, dictResult = .error e → search_web runResult dictResult n = []) ∧
    (∀ fields, dictResult = .ok fields →
      lookupField fields "organic_results" = none →
      search_web runResult dictResult n = []) := by
  refine ⟨?_, ?_, ?_, ?_⟩
  · cases runResult with
    | error e => simp [search_web]
    | ok raw =>
      cases dictResult with
      | error e => simp [search_web]
      | ok fields =>
        cases hemp : fields.isEmpty with
        | true => simp [search_web, hemp]
        | false =>
          cases hlk : lookupField fields "organic_results" with
          | none => simp [search_web, hemp, hlk]
          | some v =>
            cases v with
            | null => simp [search_web, hemp, hlk]
            | bool b => simp [search_web, hemp, hlk]
            | num m => simp [search_web, hemp, hlk]
            | str s => simp [search_web, hemp, hlk]
            | obj fs2 => simp [search_web, hemp, hlk]
            | arr items =>
              cases hfi : formatItems (items.take n) with
              | none => simp [search_web, hemp, hlk, hfi]
              | some out =>
                have hlen : out.length = (items.take n).length := formatItems_length hfi
                simp only [search_web, hemp, hlk, hfi, Bool.false_eq_true, if_false]
                rw [hlen]
                exact List.length_take_le _ _
  · intro e he
    subst he
    simp [search_web]
  · intro e he
    subst he
    cases runResult <;> simp [search_web]
  · intro fields he hlk
    subst he
    cases runResult with
    | error e2 => simp [search_web]
    | ok raw =>
      cases hemp : fields.isEmpty with
      | true => simp [search_web, hemp]
      | false => simp [search_web, hemp, hlk]

/-- Witness for C5: a raised wrapper call yields the empty sequence. -/
theorem C5_search_web_bounds_witness :
    search_web (.error "network down") (.ok []) 5 = [] :=
  (C5_search_web_bounds (.error "network down") (.ok []) 5).2.1 "network down" rfl

/-- Check that a value is a JSON string. -/
def isStrVal : JValue → Bool
  | .str _ => true
  | _ => false

/-- Boolean rendering of C7 as stated: a result record with exactly the
fields title, snippet and url, each holding a string. -/
def claimedSearchResultShape : JValue → Bool
  | .obj fs => (fs.map (·.1) == ["title", "snippet", "url"]) && fs.all (fun p => isStrVal p.2)
  | _ => false

/-- Provider payload for the C7 counterexample: one organic result whose
only field is a numeric title. -/
def cexProviderDict : List (String × JValue) :=
  [("organic_results", .arr [.obj [("title", .num 5)]])]

/-- C7 counterexample: on a concrete provider payload the returned record
has the fields title, snippet and link — not url — and its title value is
the numeric provider value, not a string; so the claimed shape fails. -/
theorem C7_result_fields_counterexample :
    search_web (.ok "raw") (.ok cexProviderDict) 5 =
      [.obj [("title", .num 5), ("snippet", .str ""), ("link", .str "")]] ∧
    (search_web (.ok "raw") (.ok cexProviderDict) 5).all claimedSearchResultShape = false := by
  exact ⟨rfl, rfl⟩

/-- C7 amended: every returned element is a record with exactly the
fields title, snippet and link, each holding the provider value for that
key with the empty string substituted when the provider omitted it. -/
theorem C7_result_fields_amended (runResult : Except String String)
    (dictResult : Except String (List (String × JValue))) (n : Nat)
    (j : JValue) (hj : j ∈ search_web runResult dictResult n) :
    j.objKeys = ["title", "snippet", "link"] ∧
    ∃ fs, j = .obj [("title", getD fs "title" (.str "")),
                    ("snippet", getD fs "snippet" (.str "")),
                    ("link", getD fs "link" (.str ""))] := by
  cases runResult with
  | error e => simp [search_web] at hj
  | ok raw =>
    cases dictResult with
    | error e => simp [search_web] at hj
    | ok fields =>
      cases hemp : fields.isEmpty with
      | true => simp [search_web, hemp] at hj
      | false =>
        cases hlk : lookupField fields "organic_results" with
        | none => simp [search_web, hemp, hlk] at hj
        | some v =>
          cases v with
          | null => simp [search_web, hemp, hlk] at hj
          | bool b => simp [search_web, hemp, hlk] at hj
          | num m => simp [search_web, hemp, hlk] at hj
          | str s => simp [search_web, hemp, hlk] at hj
          | obj fs2 => simp [search_web, hemp, hlk] at hj
          | arr items =>
            cases hfi : formatItems (items.take n) with
            | none => simp [search_web, hemp, hlk, hfi] at hj
            | some out =>
              simp only [search_web, hemp, hlk, hfi, Bool.false_eq_true, if_false] at hj
              rcases formatItems_mem hfi hj with ⟨item, hmem, hm⟩
              cases item with
              | obj fs =>
                simp only [mkFormatted, Option.some.injEq] at hm
                subst hm
                exact ⟨rfl, fs, rfl⟩
              | null => simp [mkFormatted] at hm
              | bool b => simp [mkFormatted] at hm
              | num m => simp [mkFormatted] at hm
              | str s => simp [mkFormatted] at hm
              | arr l => simp [mkFormatted] at hm

/-- Witness for the amended C7 at the counterexample payload. -/
theorem C7_result_fields_amended_witness :
    (JValue.obj [("title", .num 5), ("snippet", .str ""), ("link", .str "")]).objKeys =
      ["title", "snippet", "link"] :=
  (C7_result_fields_amended (.ok "raw") (.ok cexProviderDict) 5
    (.obj [("title", .num 5), ("snippet", .str ""), ("link", .str "")])
    (List.Mem.head _)).1

theorem contentData_eq_filter (results : List SearchResult) (fetch : String → String) :
    contentData results fetch =
      (results.filter (fun r => fetch r.link ≠ "")).map
        (fun r => ⟨r.title, fetch r.link, r.link⟩) := by
  induction results with
  | nil => rfl
  | cons r rest ih =>
    by_cases h : fetch r.link = ""
    · simp [contentData, List.filterMap_cons, List.filter_cons, h] at ih ⊢
      exact ih
    · simp [contentData, List.filterMap_cons, List.filter_cons, h] at ih ⊢
      exact ih

theorem lookupField_map_replace (fs : List (String × JValue)) (k : String) (v : JValue) :
    lookupField (fs.map (fun p => if p.1 = k then (k, v) else p)) k =
      if fs.any (fun p => p.1 = k) then some v else none := by
  induction fs with
  | nil => rfl
  | cons p rest ih =>
    obtain ⟨k1, v1⟩ := p
    by_cases h : k1 = k
    · subst h
      have hf : (if ((k1, v1) : String × JValue).1 = k1 then (k1, v) else (k1, v1)) =
          (k1, v) := by simp
      rw [List.map_cons, hf]
      simp [lookupField]
    · have hf : (if ((k1, v1) : String × JValue).1 = k then (k, v) else (k1, v1)) =
          (k1, v1) := by simp [h]
      rw [List.map_cons, hf]
      simp only [lookupField]
      rw [if_neg h, ih]
      have hd : decide (k1 = k) = false := by simp [h]
      rw [List.any_cons, hd, Bool.false_or]

theorem lookupField_append_last (fs : List (String × JValue)) (k : String) (v : JValue)
    (h : ∀ p ∈ fs, p.1 ≠ k) : lookupField (fs ++ [(k, v)]) k = some v := by
  induction fs with
  | nil => simp [lookupField]
  | cons p rest ih =>
    obtain ⟨k1, v1⟩ := p
    have h1 : k1 ≠ k := h (k1, v1) (List.mem_cons_self _ _)
    simp only [List.cons_append, lookupField, if_neg h1]
    exact ih (fun q hq => h q (List.mem_cons_of_mem _ hq))

theorem lookupField_setField (fs : List (String × JValue)) (k : String) (v : JValue) :
    lookupField (setField fs k v) k = some v := by
  unfold setField
  cases hany : fs.any (fun p => p.1 = k) with
  | true =>
    simp only [hany, if_true]
    rw [lookupField_map_replace, hany]
    rfl
  | false =>
    simp only [hany, Bool.false_eq_true, if_false]
    refine lookupField_append_last fs k v ?_
    intro p hp
    have := List.any_eq_false.mp hany p hp
    simpa using this

/-- C4: the orchestrating handler omits exactly the results whose fetched
content is empty, keeps the survivors in their original relative order in
the content data and in the combined SOURCE-tagged block, and sets the
sources field of the resulting tree to exactly the surviving URLs in that
order, overwriting any existing sources value — for every tree the
generator returns, the degraded fallback included. -/
theorem C4_sources_order (topic : String) (results : List SearchResult)
    (fetch : String → String) (genTree : String → String → JValue)
    (hne : results ≠ []) :
    contentData results fetch =
      (results.filter (fun r => fetch r.link ≠ "")).map
        (fun r => ⟨r.title, fetch r.link, r.link⟩) ∧
    combinedContent (contentData results fetch) =
      joinStr "\n\n" ((results.filter (fun r => fetch r.link ≠ "")).map
        (fun r => "SOURCE: " ++ r.title ++ "\n" ++ fetch r.link)) ∧
    (∀ fields, genTree topic (combinedContent (contentData results fetch)) = .obj fields →
      (runSearchHandler topic results fetch genTree).outcome =
        .tree (.obj (setField fields "sources"
          (.arr (((results.filter (fun r => fetch r.link ≠ "")).map (·.link)).map
            JValue.str)))) ∧
      lookupField (setField fields "sources"
          (.arr (((results.filter (fun r => fetch r.link ≠ "")).map (·.link)).map
            JValue.str))) "sources" =
        some (.arr (((results.filter (fun r => fetch r.link ≠ "")).map (·.link)).map
          JValue.str))) := by
  have hc := contentData_eq_filter results fetch
  refine ⟨hc, ?_, ?_⟩
  · rw [hc, combinedContent, List.map_map]
    rfl
  · intro fields hg
    have hne2 : results.isEmpty = false := by
      cases results with
      | nil => exact absurd rfl hne
      | cons r rest => rfl
    have hurls : (contentData results fetch).map (·.url) =
        (results.filter (fun r => fetch r.link ≠ "")).map (·.link) := by
      rw [hc, List.map_map]
      rfl
    refine ⟨?_, lookupField_setField _ _ _⟩
    simp only [runSearchHandler, hne2, Bool.false_eq_true, if_false]
    rw [hg, setSources, hurls]

/-- Search results for the C4 witness: three results of which the second
fetches empty. -/
def resultsABC : List SearchResult :=
  [⟨"A", "", "http://a"⟩, ⟨"B", "", "http://b"⟩, ⟨"C", "", "http://c"⟩]

/-- Fetcher for the C4 witness: empty content for the second URL only. -/
def fetchB : String → String :=
  fun url => if url = "http://b" then "" else "text of " ++ url

/-- Constant tree generator for the C4 witness. -/
def genConstTree : String → String → JValue :=
  fun _ _ => .obj [("topic", .str "t")]

/-- Witness for C4 at the concrete three-result run with one failing
fetch. -/
theorem C4_sources_order_witness :
    (runSearchHandler "t" resultsABC fetchB genConstTree).outcome =
      .tree (.obj (setField [("topic", .str "t")] "sources"
        (.arr (((resultsABC.filter (fun r => fetchB r.link ≠ "")).map (·.link)).map
          JValue.str)))) :=
  ((C4_sources_order "t" resultsABC fetchB genConstTree
    (by simp [resultsABC])).2.2 [("topic", .str "t")] rfl).1
